import Mathlib

/-!
Verification development for the SecurityCamera adaptive streaming pipeline
(src/main.rs). The Rust source is shallowly embedded: machine integers are
modelled as `Nat` (with explicit `% 2^w` where wrap-around is reachable),
`std::time::Instant` arithmetic is modelled by passing the elapsed time since
the last resolution change, in whole milliseconds, as an explicit input, and
the async loops are modelled as explicit step functions over event lists.
-/

namespace SecCam

/-- `NetworkState` from src/main.rs lines 11-16.  `last_resolution_change`
(an `Instant`) is not stored; instead `update_congestion` receives the
elapsed time since the last change as an explicit argument, and reports
whether it reset the timer via the `resetTimer` field of its result. -/
structure NetworkState where
  is_congested : Bool
  congestion_level : Nat
  stability_counter : Nat
deriving DecidableEq

/-- Result of `update_congestion`: the mutated state, whether
`last_resolution_change` was assigned (`resetTimer`), and the returned
`(is_congested, width, quality)` triple (height is computed by the caller
in the Rust code; we also record the height chosen in the branch). -/
structure UpdateResult where
  state : NetworkState
  resetTimer : Bool
  width : Nat
  height : Nat
  quality : Nat
deriving DecidableEq

/-- The `new_congestion_indicators` expression, src/main.rs lines 31-34. -/
def congestionIndicators (queue_size consecutive_failures : Nat) (server_congestion : Bool) : Nat :=
  (if queue_size > 20 then 2 else if queue_size > 10 then 1 else 0) +
  (if consecutive_failures > 3 then 3 else if consecutive_failures > 0 then 1 else 0) +
  (if server_congestion then 3 else 0)

/-- The congestion-level adjustment, src/main.rs lines 37-41.
`(l + 1).min(10)` and `saturating_sub(1)` on `u8`; since the indicator is
at most 8, the `u8` increment can never wrap before the `min`. -/
def levelStep (level ind stab : Nat) : Nat :=
  if ind > level then min (level + 1) 10
  else if ind < level ∧ stab > 5 then level - 1
  else level

/-- The stability-counter update, src/main.rs lines 44-48; the `+= 1` is on a
`u32`, hence the `% 2^32`. -/
def stabStep (stab l1 ind : Nat) : Nat :=
  if ((ind : Int) - (l1 : Int)).natAbs > 2 then 0 else (stab + 1) % 4294967296

/-- `NetworkState::update_congestion`, src/main.rs lines 29-91.
`elapsed_ms` models `now.duration_since(self.last_resolution_change)` in
whole milliseconds; `Duration::from_secs(2)`/`from_secs(15)` comparisons are
strict in the source (`time_since_last_change > ...`), hence `> 2000` and
`> 15000`.  The quality subtractions are on `u32` and cannot underflow while
`congestion_level ≤ 10`; `Nat` truncated subtraction is used. -/
def update_congestion (s : NetworkState) (queue_size consecutive_failures : Nat)
    (server_congestion : Bool) (elapsed_ms : Nat) : UpdateResult :=
  let ind := congestionIndicators queue_size consecutive_failures server_congestion
  let l1 := levelStep s.congestion_level ind s.stability_counter
  let stab1 := stabStep s.stability_counter l1 ind
  let should_reduce := l1 > 6 ∧ elapsed_ms > 2000 ∧ s.is_congested = false
  let should_increase := l1 < 3 ∧ elapsed_ms > 15000 ∧ s.is_congested = true ∧ stab1 > 20
  if should_reduce ∨ s.is_congested = true then
    { state := ⟨true, l1, stab1⟩, resetTimer := true,
      width := 640, height := 480, quality := max (50 - l1 * 2) 20 }
  else if should_increase then
    { state := ⟨false, l1, stab1⟩, resetTimer := true,
      width := 1280, height := 720, quality := max 70 20 }
  else if s.is_congested = true then
    { state := ⟨s.is_congested, l1, stab1⟩, resetTimer := false,
      width := 640, height := 480, quality := max (50 - l1 * 2) 20 }
  else
    { state := ⟨s.is_congested, l1, stab1⟩, resetTimer := false,
      width := 1280, height := 720, quality := max (70 - l1 * 3) 20 }

/-- One controller-loop step of the estimator state, for trace claims:
`(queue_size, consecutive_failures, server_congestion, elapsed_ms)`. -/
def stepState (s : NetworkState) (inp : Nat × Nat × Bool × Nat) : NetworkState :=
  (update_congestion s inp.1 inp.2.1 inp.2.2.1 inp.2.2.2).state

/-- The estimator state after the first `n` scripted inputs. -/
def traceState (s0 : NetworkState) (inputs : List (Nat × Nat × Bool × Nat)) (n : Nat) : NetworkState :=
  List.foldl stepState s0 (inputs.take n)

/-- Modelled from the spec is only the wording of the recurrence (section 4.3
/ section 8 of spec.md): the level moves up by exactly 1 (clamped at 10) when
the indicator exceeds it, moves down by exactly 1 (clamped at 0) only when the
indicator is below it and the stability counter exceeds 5, and is otherwise
unchanged.  Claim C3 compares the source-derived `update_congestion` against
this recurrence. -/
def specLevelStep (level ind stab : Nat) : Nat :=
  if ind > level then min (level + 1) 10
  else if ind < level ∧ stab > 5 then level - 1
  else level

/-! ## Frame extractor (`process_frames`, src/main.rs lines 95-194)

Bytes are modelled as `Nat` (the JPEG markers are `0xFF 0xD8` = 255 216 and
`0xFF 0xD9` = 255 217).  Indexing `accumulated_data[i]` is modelled as
`data.getD i 0`; all accesses in the source are guarded in-bounds, so the
default is never observed.  The two scanning loops are given explicit fuel
equal to the buffer length (each iteration advances the index by at least
one, so this fuel is sufficient); structural recursion on the fuel keeps the
definitions kernel-computable. -/

/-- The inner end-marker scan, src/main.rs lines 120-158: starting at
`end_pos`, find the first `e` with `e + 1 < data.length` whose pair of bytes
is `0xFF 0xD9`; `none` models `found_end == false`. -/
def findEndFuel : List Nat → Nat → Nat → Option Nat
  | _, _, 0 => none
  | data, e, fuel + 1 =>
    if e + 1 < data.length then
      if data.getD e 0 = 255 ∧ data.getD (e + 1) 0 = 217 then some e
      else findEndFuel data (e + 1) fuel
    else none

/-- The outer scanning loop of one read pass, src/main.rs lines 115-168:
`while position + 4 < len`, a frame is sliced inclusively from the start
marker through the end marker (`data[position..=end_pos+1]`), and scanning
resumes past it; a start marker without an end marker stops the pass with
`position` still at the start marker.  Returns the extracted frames, in
order, and the final `position`. -/
def extractLoopFuel : List Nat → Nat → Nat → List (List Nat) × Nat
  | _, pos, 0 => ([], pos)
  | data, pos, fuel + 1 =>
    if pos + 4 < data.length then
      if data.getD pos 0 = 255 ∧ data.getD (pos + 1) 0 = 216 then
        match findEndFuel data (pos + 2) data.length with
        | some e =>
          let frame := (data.drop pos).take (e + 2 - pos)
          let rest := extractLoopFuel data (e + 2) fuel
          (frame :: rest.1, rest.2)
        | none => ([], pos)
      else extractLoopFuel data (pos + 1) fuel
    else ([], pos)

/-- One read pass of `process_frames`, src/main.rs lines 110-182: append the
chunk, extract every complete frame, keep the unprocessed suffix
(`accumulated_data = accumulated_data[position..]`), and apply the 10 MiB
safety truncation.  Note the Rust `1024 * 1024.min(accumulated_data.len())`
parses as `1024 * (1024.min(len))`, which we translate verbatim. -/
def processChunk (acc chunk : List Nat) : List (List Nat) × List Nat :=
  let data := acc ++ chunk
  let r := extractLoopFuel data 0 (data.length + 1)
  let retained := data.drop r.2
  if retained.length > 10 * 1024 * 1024 then
    (r.1, retained.drop (retained.length - 1024 * min 1024 retained.length))
  else (r.1, retained)

/-- Fold one chunk into the running (emitted frames, accumulation buffer)
state. -/
def feedChunk (st : List (List Nat) × List Nat) (chunk : List Nat) : List (List Nat) × List Nat :=
  let r := processChunk st.2 chunk
  (st.1 ++ r.1, r.2)

/-- Feed a whole sequence of read chunks to a fresh extractor. -/
def processStream (chunks : List (List Nat)) : List (List Nat) × List Nat :=
  List.foldl feedChunk ([], []) chunks

/-- A well-formed marker-delimited frame: start marker, payload, end
marker. -/
def frameBytes (payload : List Nat) : List Nat :=
  255 :: 216 :: (payload ++ [255, 217])

/-- The payload contains no embedded two-byte start or end marker.  (The
quantifier runs one position past the last pair; there `getD` returns the
default 0, which is neither 216 nor 217, so the extra instance is vacuous —
it keeps the predicate decidable by a bounded check.) -/
def markerFree (payload : List Nat) : Prop :=
  ∀ i, i < payload.length →
    ¬(payload.getD i 0 = 255 ∧ (payload.getD (i + 1) 0 = 216 ∨ payload.getD (i + 1) 0 = 217))

instance (payload : List Nat) : Decidable (markerFree payload) :=
  Nat.decidableBallLT _ _

/-! ## Extractor-side admission (`process_frames`, src/main.rs lines 131-151)

Whether a candidate frame is enqueued depends only on the shared occupancy
counter and the channel depth, and has no effect on the scanning position,
so it is modelled as a separate per-frame step.  The channel is the
`mpsc::channel::<Vec<u8>>(60)` of src/main.rs line 482; `try_send` succeeds
exactly when the channel holds fewer than 60 frames. -/

/-- Outcome of one admission decision. -/
inductive AdmitOutcome where
  | sent
  | channelFull
  | queueCongested
deriving DecidableEq

/-- One admission decision: read the shared counter; below 50, attempt a
non-blocking enqueue and increment the counter on success; otherwise drop. -/
def admitFrame (queue_size channel_len : Nat) : Nat × Nat × AdmitOutcome :=
  if queue_size < 50 then
    if channel_len < 60 then (queue_size + 1, channel_len + 1, AdmitOutcome.sent)
    else (queue_size, channel_len, AdmitOutcome.channelFull)
  else (queue_size, channel_len, AdmitOutcome.queueCongested)

/-- Fold admission over a sequence of candidate frames (no consumer-side
dequeues), returning the final (counter, channel depth). -/
def admitAll : Nat → Nat → List (List Nat) → Nat × Nat
  | qs, ch, [] => (qs, ch)
  | qs, ch, _ :: rest =>
    let r := admitFrame qs ch
    admitAll r.1 r.2.1 rest

/-! ## Base64 (the `BASE64_STANDARD.encode` of src/main.rs line 358) -/

def b64Alphabet : String :=
  "ABCDEFGHIJKLMNOPQRSTUVWXYZabcdefghijklmnopqrstuvwxyz0123456789+/"

def b64Char (n : Nat) : Char := b64Alphabet.toList.getD n 'A'

/-- RFC 4648 standard alphabet with padding, three input bytes at a time. -/
def base64Chars : List Nat → List Char
  | [] => []
  | [a] => [b64Char (a / 4), b64Char (a % 4 * 16), '=', '=']
  | [a, b] => [b64Char (a / 4), b64Char (a % 4 * 16 + b / 16), b64Char (b % 16 * 4), '=']
  | a :: b :: c :: rest =>
    b64Char (a / 4) :: b64Char (a % 4 * 16 + b / 16) ::
    b64Char (b % 16 * 4 + c / 64) :: b64Char (c % 64) :: base64Chars rest

def base64Encode (bytes : List Nat) : String := String.mk (base64Chars bytes)

/-! ## Outbound websocket loop (`start_websocket_handler`, src/main.rs lines 327-439)

The send/pong `tokio::select!` loop is modelled as a step function over
events; each event carries the environment's answers (did the send succeed,
did the reconnect succeed, did the rejoin send succeed), and each step
reports the externally visible actions in order. -/

/-- The shared state visible to the outbound loop.  `capture_timestamp` is
the value computed once at src/main.rs lines 329-332, before the loop. -/
structure OutState where
  consecutive_failures : Nat
  consecutive_successes : Nat
  network_congested : Bool
  quality : Nat
  width : Nat
  height : Nat
  queue_size : Nat
  capture_timestamp : Nat
  camera_id : String
deriving DecidableEq

/-- The JSON frame message of src/main.rs lines 359-367, as a record. -/
structure FramePayload where
  camera_id : String
  data : String
  timestamp : Nat
  resolution : String
  quality : Nat
deriving DecidableEq

/-- One `select!` event: a queued pong to relay, or a dequeued frame.  The
Booleans are the environment's answers to the I/O the branch performs. -/
inductive OutEvent where
  | pong (sendOk : Bool)
  | frame (bytes : List Nat) (sendOk : Bool) (reconnectOk : Bool) (rejoinOk : Bool)

/-- Externally visible actions of one loop iteration, in order. -/
inductive OutAction where
  | sentPong (ok : Bool)
  | sentFrame (p : FramePayload) (ok : Bool)
  | slept (ms : Nat)
  | reconnected (ok : Bool)
  | sentRejoin (ok : Bool)
deriving DecidableEq

/-- Result of one loop iteration; `keepGoing = false` models `break`. -/
structure StepResult where
  state : OutState
  actions : List OutAction
  keepGoing : Bool

/-- The frame message built at src/main.rs lines 358-367: base64 payload,
camera id, the (loop-constant) `capture_timestamp`, and the resolution and
quality read from the shared atomics at send time. -/
def mkFramePayload (st : OutState) (bytes : List Nat) : FramePayload :=
  { camera_id := st.camera_id
    data := base64Encode bytes
    timestamp := st.capture_timestamp
    resolution := toString st.width ++ "x" ++ toString st.height
    quality := st.quality }

/-- One iteration of the outbound loop, src/main.rs lines 334-438.  The
frame branch first decrements the shared occupancy counter
(`fetch_sub(1)` on a `u64`, hence the wrap-around modulo 2^64), sends the
frame message, and on failure sets the congestion flag after more than 3
consecutive failures, sleeps 5 s, and attempts exactly one reconnect with a
resent join message; failure of either the reconnect or the rejoin send
breaks the loop.  After a successful send (or successful recovery) it sleeps
the adaptive delay of lines 420-434. -/
def stepOutbound (st : OutState) (ev : OutEvent) : StepResult :=
  match ev with
  | OutEvent.pong sendOk =>
    if sendOk then
      let s1 := st.consecutive_successes + 1
      if s1 > 4 then
        { state :=
            { st with
              consecutive_successes := s1
              consecutive_failures := 0
              network_congested := false }
          actions := [OutAction.sentPong true]
          keepGoing := true }
      else
        { state := { st with consecutive_successes := s1 }
          actions := [OutAction.sentPong true]
          keepGoing := true }
    else
      { state :=
          { st with
            consecutive_failures := st.consecutive_failures + 1
            consecutive_successes := 0 }
        actions := [OutAction.sentPong false]
        keepGoing := true }
  | OutEvent.frame bytes sendOk reconnectOk rejoinOk =>
    let qs1 := (st.queue_size + 18446744073709551615) % 18446744073709551616
    let st1 := { st with queue_size := qs1 }
    let payload := mkFramePayload st1 bytes
    if sendOk then
      let s1 := st1.consecutive_successes + 1
      let congested1 := if s1 > 10 then false else st1.network_congested
      let st2 :=
        { st1 with
          consecutive_successes := s1
          consecutive_failures := 0
          network_congested := congested1 }
      let delay := (if st2.network_congested then 100 else 10) + (if qs1 > 30 then 50 else 0)
      { state := st2
        actions := [OutAction.sentFrame payload true, OutAction.slept delay]
        keepGoing := true }
    else
      let f1 := st1.consecutive_failures + 1
      let congested1 := if f1 > 3 then true else st1.network_congested
      let st2 :=
        { st1 with
          consecutive_failures := f1
          consecutive_successes := 0
          network_congested := congested1 }
      if reconnectOk then
        if rejoinOk then
          let delay := (if st2.network_congested then 100 else 10) + (if qs1 > 30 then 50 else 0)
          { state := st2
            actions := [OutAction.sentFrame payload false, OutAction.slept 5000,
                        OutAction.reconnected true, OutAction.sentRejoin true,
                        OutAction.slept delay]
            keepGoing := true }
        else
          { state := st2
            actions := [OutAction.sentFrame payload false, OutAction.slept 5000,
                        OutAction.reconnected true, OutAction.sentRejoin false]
            keepGoing := false }
      else
        { state := st2
          actions := [OutAction.sentFrame payload false, OutAction.slept 5000,
                      OutAction.reconnected false]
          keepGoing := false }

/-- Run the outbound loop over an event list, stopping at the first
`break`. -/
def runOutbound : OutState → List OutEvent → OutState × List OutAction
  | st, [] => (st, [])
  | st, ev :: rest =>
    let r := stepOutbound st ev
    if r.keepGoing then
      let t := runOutbound r.state rest
      (t.1, r.actions ++ t.2)
    else (r.state, r.actions)

/-- Is this action a reconnect attempt? -/
def isReconnect : OutAction → Bool
  | OutAction.reconnected _ => true
  | _ => false

/-- The frame messages actually handed to the socket, in order. -/
def sentPayloads (l : List OutAction) : List FramePayload :=
  l.filterMap fun a =>
    match a with
    | OutAction.sentFrame p _ => some p
    | _ => none

/-! ## Inbound feedback handling (`start_websocket_handler`, src/main.rs lines 269-324) -/

/-- Just enough of `serde_json::Value` for the fields the handler reads. -/
inductive Jv where
  | jbool (b : Bool)
  | jnum (n : Nat)
  | jstr (s : String)
  | jother
deriving DecidableEq

def Jv.as_bool : Jv → Option Bool
  | Jv.jbool b => some b
  | _ => none

def Jv.as_u64 : Jv → Option Nat
  | Jv.jnum n => some n
  | _ => none

def Jv.as_str : Jv → Option String
  | Jv.jstr s => some s
  | _ => none

/-- The `network_feedback` object with its three optional fields. -/
structure NetworkFeedback where
  congested : Option Jv
  suggested_quality : Option Jv
  suggested_resolution : Option Jv

/-- The shared atomics the inbound task writes. -/
structure SharedState where
  network_congested : Bool
  quality : Nat
  width : Nat
  height : Nat
deriving DecidableEq

/-- The inbound text-message handler, src/main.rs lines 274-311, applied to a
message that parsed as JSON; `none` models a message with no
`network_feedback` object.  Note the suggested-quality and
suggested-resolution writes are nested inside the successful
`congested.as_bool()` branch; `q as u32` truncates, hence `% 2^32`. -/
def handleFeedbackMsg (st : SharedState) (msg : Option NetworkFeedback) : SharedState :=
  match msg with
  | none => { st with network_congested := false }
  | some fb =>
    match fb.congested with
    | none => { st with network_congested := false }
    | some cj =>
      match cj.as_bool with
      | none => st
      | some b =>
        let st1 := { st with network_congested := b }
        let st2 :=
          match fb.suggested_quality with
          | none => st1
          | some qj =>
            match qj.as_u64 with
            | none => st1
            | some q => { st1 with quality := q % 4294967296 }
        match fb.suggested_resolution with
        | none => st2
        | some rj =>
          match rj.as_str with
          | none => st2
          | some r =>
            if r = "640x480" then { st2 with width := 640, height := 480 }
            else if r = "1280x720" then { st2 with width := 1280, height := 720 }
            else st2

/-! ## List indexing helper lemmas -/

theorem getD_append_left (l1 l2 : List Nat) (i : Nat) (h : i < l1.length) :
    (l1 ++ l2).getD i 0 = l1.getD i 0 := by
  simp [List.getD_eq_getElem?_getD, List.getElem?_append, h]

theorem getD_append_right (l1 l2 : List Nat) (i : Nat) (h : l1.length ≤ i) :
    (l1 ++ l2).getD i 0 = l2.getD (i - l1.length) 0 := by
  simp [List.getD_eq_getElem?_getD, List.getElem?_append_right h]

theorem getD_drop (l : List Nat) (p i : Nat) : (l.drop p).getD i 0 = l.getD (p + i) 0 := by
  simp [List.getD_eq_getElem?_getD, List.getElem?_drop]

theorem getD_take_of_lt (l : List Nat) (k i : Nat) (h : i < k) :
    (l.take k).getD i 0 = l.getD i 0 := by
  simp [List.getD_eq_getElem?_getD, List.getElem?_take, h]

theorem getD_replicate (n x i : Nat) :
    (List.replicate n x).getD i 0 = if i < n then x else 0 := by
  simp only [List.getD_eq_getElem?_getD, List.getElem?_replicate]
  split_ifs <;> rfl

/-! ## Helper lemmas for the congestion estimator -/

theorem update_congestion_state_level (s : NetworkState) (qs cf : Nat) (sc : Bool) (e : Nat) :
    (update_congestion s qs cf sc e).state.congestion_level =
      levelStep s.congestion_level (congestionIndicators qs cf sc) s.stability_counter := by
  unfold update_congestion
  dsimp only
  split_ifs <;> rfl

theorem update_congestion_state_stab (s : NetworkState) (qs cf : Nat) (sc : Bool) (e : Nat) :
    (update_congestion s qs cf sc e).state.stability_counter =
      stabStep s.stability_counter
        (levelStep s.congestion_level (congestionIndicators qs cf sc) s.stability_counter)
        (congestionIndicators qs cf sc) := by
  unfold update_congestion
  dsimp only
  split_ifs <;> rfl

theorem levelStep_le_ten (level ind stab : Nat) (h : level ≤ 10) :
    levelStep level ind stab ≤ 10 := by
  unfold levelStep
  split_ifs <;> omega

/-- While `is_congested` is set, the first profile branch always fires:
the evaluation returns the degraded profile and refreshes the switch
timer, whatever the other inputs are. -/
theorem update_congestion_of_degraded (s : NetworkState) (qs cf : Nat) (sc : Bool) (e : Nat)
    (h : s.is_congested = true) :
    update_congestion s qs cf sc e =
      { state := ⟨true, levelStep s.congestion_level (congestionIndicators qs cf sc)
            s.stability_counter,
          stabStep s.stability_counter
            (levelStep s.congestion_level (congestionIndicators qs cf sc) s.stability_counter)
            (congestionIndicators qs cf sc)⟩
        resetTimer := true, width := 640, height := 480
        quality := max (50 - levelStep s.congestion_level (congestionIndicators qs cf sc)
            s.stability_counter * 2) 20 } := by
  unfold update_congestion
  dsimp only
  rw [if_pos (Or.inr h)]

/-- From a nominal state with the degrade conditions met, the first branch
fires with the degraded profile. -/
theorem update_congestion_of_reduce (s : NetworkState) (qs cf : Nat) (sc : Bool) (e : Nat)
    (h : s.is_congested = false)
    (hr : 6 < levelStep s.congestion_level (congestionIndicators qs cf sc) s.stability_counter)
    (he : 2000 < e) :
    update_congestion s qs cf sc e =
      { state := ⟨true, levelStep s.congestion_level (congestionIndicators qs cf sc)
            s.stability_counter,
          stabStep s.stability_counter
            (levelStep s.congestion_level (congestionIndicators qs cf sc) s.stability_counter)
            (congestionIndicators qs cf sc)⟩
        resetTimer := true, width := 640, height := 480
        quality := max (50 - levelStep s.congestion_level (congestionIndicators qs cf sc)
            s.stability_counter * 2) 20 } := by
  unfold update_congestion
  dsimp only
  rw [if_pos (Or.inl ⟨hr, he, h⟩)]

/-- From a nominal state with the degrade conditions not met, the evaluation
keeps the nominal profile (the upgrade branch demands `is_congested`, so it
cannot fire from a nominal state either). -/
theorem update_congestion_of_nominal_keep (s : NetworkState) (qs cf : Nat) (sc : Bool) (e : Nat)
    (h : s.is_congested = false)
    (hn : ¬(6 < levelStep s.congestion_level (congestionIndicators qs cf sc) s.stability_counter
        ∧ 2000 < e)) :
    update_congestion s qs cf sc e =
      { state := ⟨s.is_congested, levelStep s.congestion_level (congestionIndicators qs cf sc)
            s.stability_counter,
          stabStep s.stability_counter
            (levelStep s.congestion_level (congestionIndicators qs cf sc) s.stability_counter)
            (congestionIndicators qs cf sc)⟩
        resetTimer := false, width := 1280, height := 720
        quality := max (70 - levelStep s.congestion_level (congestionIndicators qs cf sc)
            s.stability_counter * 3) 20 } := by
  unfold update_congestion
  dsimp only
  rw [if_neg, if_neg, if_neg]
  · simp [h]
  · rintro ⟨-, -, hc, -⟩
    rw [h] at hc
    cases hc
  · rintro (⟨ha, hb, -⟩ | hc)
    · exact hn ⟨ha, hb⟩
    · rw [h] at hc
      cases hc

theorem specLevelStep_eq_levelStep (level ind stab : Nat) :
    specLevelStep level ind stab = levelStep level ind stab := rfl

theorem traceState_zero (s0 : NetworkState) (inputs : List (Nat × Nat × Bool × Nat)) :
    traceState s0 inputs 0 = s0 := rfl

theorem traceState_succ_of_get (s0 : NetworkState) (inputs : List (Nat × Nat × Bool × Nat))
    (n : Nat) (inp : Nat × Nat × Bool × Nat) (h : inputs[n]? = some inp) :
    traceState s0 inputs (n + 1) = stepState (traceState s0 inputs n) inp := by
  unfold traceState
  rw [List.take_succ, h]
  simp [List.foldl_append]

theorem traceState_succ_of_none (s0 : NetworkState) (inputs : List (Nat × Nat × Bool × Nat))
    (n : Nat) (h : inputs[n]? = none) :
    traceState s0 inputs (n + 1) = traceState s0 inputs n := by
  unfold traceState
  rw [List.take_succ, h]
  simp

/-! ## C1 -/

/-- C1: the claim says the upgrade to 1280x720 fires whenever
congestion_level < 3, at least 15000 ms have elapsed, the state is degraded
and stability_counter > 20.  In the code the first profile branch
(`should_reduce || self.is_congested`) always wins while `is_congested` is
true, so the upgrade branch is unreachable: at the concrete input below all
four upgrade conditions hold, yet the evaluation returns the degraded
640x480 profile, keeps `is_congested` set, and even refreshes
`last_resolution_change`. -/
theorem c1_upgrade_never_fires :
    (update_congestion ⟨true, 2, 25⟩ 0 0 false 20000).state.congestion_level < 3 ∧
    (update_congestion ⟨true, 2, 25⟩ 0 0 false 20000).state.stability_counter > 20 ∧
    (NetworkState.mk true 2 25).is_congested = true ∧
    20000 > 15000 ∧
    (update_congestion ⟨true, 2, 25⟩ 0 0 false 20000).width = 640 ∧
    (update_congestion ⟨true, 2, 25⟩ 0 0 false 20000).state.is_congested = true ∧
    (update_congestion ⟨true, 2, 25⟩ 0 0 false 20000).resetTimer = true := by
  decide

/-! ## C2 -/

/-- C2 counterexample: at the concrete nominal state below the post-update
level is 7 > 6 and exactly 2000 ms have elapsed, yet no degrade happens
(the source compares `time_since_last_change > Duration::from_secs(2)`
strictly), contradicting the claim that the transition fires at
elapsed = 2000 ms exactly. -/
theorem c2_boundary_counterexample :
    (update_congestion ⟨false, 7, 10⟩ 15 5 true 2000).state.congestion_level > 6 ∧
    (NetworkState.mk false 7 10).is_congested = false ∧
    (update_congestion ⟨false, 7, 10⟩ 15 5 true 2000).state.is_congested = false ∧
    (update_congestion ⟨false, 7, 10⟩ 15 5 true 2000).width = 1280 := by
  decide

/-- C2 (amended): from a nominal state, the degrade transition to 640x480
fires iff the post-update congestion level exceeds 6 AND strictly more than
2000 ms have elapsed since the last resolution switch; when it fires the
result is the 640x480 profile with the switch timer reset.  In particular it
fires at 2001 ms but not at 2000 ms or 1999 ms, and not at level 6. -/
theorem c2_degrade_iff (s : NetworkState) (qs cf : Nat) (sc : Bool) (e : Nat)
    (h : s.is_congested = false) :
    ((update_congestion s qs cf sc e).state.is_congested = true ↔
      ((update_congestion s qs cf sc e).state.congestion_level > 6 ∧ e > 2000)) ∧
    ((update_congestion s qs cf sc e).state.is_congested = true →
      (update_congestion s qs cf sc e).width = 640 ∧
      (update_congestion s qs cf sc e).resetTimer = true) := by
  by_cases hb : 6 < levelStep s.congestion_level (congestionIndicators qs cf sc)
      s.stability_counter ∧ 2000 < e
  · rw [update_congestion_of_reduce s qs cf sc e h hb.1 hb.2]
    exact ⟨by simpa using hb, fun _ => ⟨rfl, rfl⟩⟩
  · rw [update_congestion_of_nominal_keep s qs cf sc e h hb]
    constructor
    · rw [h]
      simpa using fun hx he => hb ⟨hx, he⟩
    · rw [h]
      intro hx
      cases hx

/-- C2 witness: the amended statement at a concrete firing input
(level 7, 2001 ms elapsed, nominal). -/
theorem c2_degrade_iff_witness :
    ((update_congestion ⟨false, 7, 10⟩ 15 5 true 2001).state.is_congested = true ↔
      ((update_congestion ⟨false, 7, 10⟩ 15 5 true 2001).state.congestion_level > 6 ∧
        2001 > 2000)) ∧
    ((update_congestion ⟨false, 7, 10⟩ 15 5 true 2001).state.is_congested = true →
      (update_congestion ⟨false, 7, 10⟩ 15 5 true 2001).width = 640 ∧
      (update_congestion ⟨false, 7, 10⟩ 15 5 true 2001).resetTimer = true) :=
  c2_degrade_iff ⟨false, 7, 10⟩ 15 5 true 2001 rfl

/-! ## C3 -/

/-- C3: along any scripted input trace, the congestion level follows the
spec recurrence exactly (up by exactly 1 clamped at 10 when the indicator
exceeds the level; down by exactly 1, clamped at 0, only when the indicator
is below the level and the stability counter exceeds 5; otherwise
unchanged), and the level never leaves [0, 10]. -/
theorem c3_level_trace (s0 : NetworkState) (inputs : List (Nat × Nat × Bool × Nat))
    (h0 : s0.congestion_level ≤ 10) :
    (∀ n inp, inputs[n]? = some inp →
      (traceState s0 inputs (n + 1)).congestion_level =
        specLevelStep (traceState s0 inputs n).congestion_level
          (congestionIndicators inp.1 inp.2.1 inp.2.2.1)
          (traceState s0 inputs n).stability_counter) ∧
    (∀ n, (traceState s0 inputs n).congestion_level ≤ 10) := by
  constructor
  · intro n inp h
    rw [traceState_succ_of_get s0 inputs n inp h]
    rw [specLevelStep_eq_levelStep]
    exact update_congestion_state_level _ _ _ _ _
  · intro n
    induction n with
    | zero => exact h0
    | succ k ih =>
      cases h : inputs[k]? with
      | none => rw [traceState_succ_of_none s0 inputs k h]; exact ih
      | some inp =>
        rw [traceState_succ_of_get s0 inputs k inp h]
        rw [stepState, update_congestion_state_level]
        exact levelStep_le_ten _ _ _ ih

/-- C3 witness: the recurrence and the bound, instantiated on a concrete
one-step trace. -/
theorem c3_level_trace_witness :
    (NetworkState.mk false 0 0).congestion_level ≤ 10 ∧
    (traceState ⟨false, 0, 0⟩ [(25, 0, false, 0)] 1).congestion_level =
      specLevelStep (traceState ⟨false, 0, 0⟩ [(25, 0, false, 0)] 0).congestion_level
        (congestionIndicators 25 0 false)
        (traceState ⟨false, 0, 0⟩ [(25, 0, false, 0)] 0).stability_counter ∧
    (traceState ⟨false, 0, 0⟩ [(25, 0, false, 0)] 1).congestion_level ≤ 10 :=
  ⟨by decide,
    (c3_level_trace ⟨false, 0, 0⟩ [(25, 0, false, 0)] (by decide)).1 0 (25, 0, false, 0) rfl,
    (c3_level_trace ⟨false, 0, 0⟩ [(25, 0, false, 0)] (by decide)).2 1⟩

/-! ## C5 -/

theorem admitAll_le_fifty (frames : List (List Nat)) :
    ∀ qs ch, qs ≤ 50 → (admitAll qs ch frames).1 ≤ 50 := by
  induction frames with
  | nil => intro qs ch h; exact h
  | cons f rest ih =>
    intro qs ch h
    show (admitAll (admitFrame qs ch).1 (admitFrame qs ch).2.1 rest).1 ≤ 50
    apply ih
    unfold admitFrame
    split_ifs <;> omega

/-- C5: a candidate frame is enqueued iff the shared occupancy counter read
before the enqueue is strictly below 50 and the non-blocking enqueue
succeeds (channel below its capacity of 60); the counter is incremented
exactly on success; at or above 50 the frame is dropped without touching the
channel; and folding admissions alone from any counter value at most 50
never drives the counter above 50. -/
theorem c5_admission (qs ch : Nat) :
    ((admitFrame qs ch).2.2 = AdmitOutcome.sent ↔ qs < 50 ∧ ch < 60) ∧
    ((admitFrame qs ch).1 = if (admitFrame qs ch).2.2 = AdmitOutcome.sent then qs + 1 else qs) ∧
    ((admitFrame qs ch).2.1 = if (admitFrame qs ch).2.2 = AdmitOutcome.sent then ch + 1 else ch) ∧
    (50 ≤ qs → (admitFrame qs ch).2.2 = AdmitOutcome.queueCongested ∧
      (admitFrame qs ch).2.1 = ch) ∧
    (∀ frames, qs ≤ 50 → (admitAll qs ch frames).1 ≤ 50) := by
  refine ⟨?_, ?_, ?_, ?_, fun frames h => admitAll_le_fifty frames qs ch h⟩ <;>
    unfold admitFrame <;> split_ifs <;> simp_all

/-- C5 witness: at counter 49 the frame is admitted and two further
candidates still leave the counter at most 50; at counter 50 the next
candidate is dropped. -/
theorem c5_admission_witness :
    (admitFrame 50 0).2.2 = AdmitOutcome.queueCongested ∧
    (admitAll 49 0 [[1], [2]]).1 ≤ 50 :=
  ⟨((c5_admission 50 0).2.2.2.1 (by decide)).1,
    (c5_admission 49 0).2.2.2.2 [[1], [2]] (by decide)⟩

/-! ## C6 -/

/-- C6: on any evaluation that does not switch profile (the `is_congested`
flag is unchanged), the returned quality is 50 − 2·level while degraded and
70 − 3·level while nominal (level being the post-update congestion level),
and every returned quality is at least 20.  The hypothesis `level ≤ 10` is
the invariant established by `c3_level_trace`. -/
theorem c6_quality (s : NetworkState) (qs cf : Nat) (sc : Bool) (e : Nat)
    (h : s.congestion_level ≤ 10) :
    20 ≤ (update_congestion s qs cf sc e).quality ∧
    ((update_congestion s qs cf sc e).state.is_congested = s.is_congested →
      s.is_congested = true →
      (update_congestion s qs cf sc e).quality =
        50 - (update_congestion s qs cf sc e).state.congestion_level * 2) ∧
    ((update_congestion s qs cf sc e).state.is_congested = s.is_congested →
      s.is_congested = false →
      (update_congestion s qs cf sc e).quality =
        70 - (update_congestion s qs cf sc e).state.congestion_level * 3) := by
  have hl : levelStep s.congestion_level (congestionIndicators qs cf sc) s.stability_counter ≤ 10 :=
    levelStep_le_ten _ _ _ h
  cases hc : s.is_congested with
  | true =>
    rw [update_congestion_of_degraded s qs cf sc e hc]
    refine ⟨le_max_right _ _, ?_, ?_⟩
    · intro _ _
      exact max_eq_left (by omega)
    · intro _ hx
      cases hx
  | false =>
    by_cases hb : 6 < levelStep s.congestion_level (congestionIndicators qs cf sc)
        s.stability_counter ∧ 2000 < e
    · rw [update_congestion_of_reduce s qs cf sc e hc hb.1 hb.2]
      refine ⟨le_max_right _ _, ?_, ?_⟩
      · intro _ hx
        cases hx
      · intro h1 _
        simp at h1
    · rw [update_congestion_of_nominal_keep s qs cf sc e hc hb]
      refine ⟨le_max_right _ _, ?_, ?_⟩
      · intro _ hx
        cases hx
      · intro _ _
        exact max_eq_left (by omega)

/-- C6 witness: a nominal, non-switching evaluation at level 5 returns
quality 70 − 3·5 = 55 ≥ 20. -/
theorem c6_quality_witness :
    (NetworkState.mk false 5 0).congestion_level ≤ 10 ∧
    (20 ≤ (update_congestion ⟨false, 5, 0⟩ 0 0 false 0).quality ∧
      ((update_congestion ⟨false, 5, 0⟩ 0 0 false 0).state.is_congested =
          (NetworkState.mk false 5 0).is_congested →
        (NetworkState.mk false 5 0).is_congested = true →
        (update_congestion ⟨false, 5, 0⟩ 0 0 false 0).quality =
          50 - (update_congestion ⟨false, 5, 0⟩ 0 0 false 0).state.congestion_level * 2) ∧
      ((update_congestion ⟨false, 5, 0⟩ 0 0 false 0).state.is_congested =
          (NetworkState.mk false 5 0).is_congested →
        (NetworkState.mk false 5 0).is_congested = false →
        (update_congestion ⟨false, 5, 0⟩ 0 0 false 0).quality =
          70 - (update_congestion ⟨false, 5, 0⟩ 0 0 false 0).state.congestion_level * 3)) :=
  ⟨by decide, c6_quality ⟨false, 5, 0⟩ 0 0 false 0 (by decide)⟩

/-! ## C8 -/

/-- C8 counterexample: a feedback object whose `congested` field is absent
but which carries `suggested_quality: 42` leaves the shared quality at its
old value 70 (the suggestion handling is nested inside the successful
`congested.as_bool()` branch), contradicting the claim that a present
`suggested_quality` overwrites the shared quality regardless of other
fields.  The congestion flag is still cleared. -/
theorem c8_suggestion_ignored_counterexample :
    (handleFeedbackMsg ⟨true, 70, 1280, 720⟩ (some ⟨none, some (Jv.jnum 42), none⟩)).quality = 70 ∧
    (70 : Nat) ≠ 42 ∧
    (handleFeedbackMsg ⟨true, 70, 1280, 720⟩
        (some ⟨none, some (Jv.jnum 42), none⟩)).network_congested = false := by
  decide

/-- C8 (amended): the `congested` boolean of a feedback object overwrites
the shared congestion flag, and — only then — present `suggested_quality` /
`suggested_resolution` fields overwrite the shared quality and resolution
regardless of the other fields; if the feedback object or its `congested`
field is absent, the congestion flag is set to false and the suggestions are
ignored. -/
theorem c8_feedback_overwrites (st : SharedState) (b : Bool) (q r : Option Jv) (n : Nat) (s : String) :
    (handleFeedbackMsg st none).network_congested = false ∧
    (handleFeedbackMsg st none).quality = st.quality ∧
    (handleFeedbackMsg st (some ⟨none, q, r⟩)).network_congested = false ∧
    (handleFeedbackMsg st (some ⟨none, q, r⟩)).quality = st.quality ∧
    (handleFeedbackMsg st (some ⟨none, q, r⟩)).width = st.width ∧
    (handleFeedbackMsg st (some ⟨some (Jv.jbool b), none, none⟩)) =
      { st with network_congested := b } ∧
    (handleFeedbackMsg st (some ⟨some (Jv.jbool b), some (Jv.jnum n), none⟩)).quality =
      n % 4294967296 ∧
    (handleFeedbackMsg st (some ⟨some (Jv.jbool b), some (Jv.jnum n), none⟩)).network_congested = b ∧
    (handleFeedbackMsg st (some ⟨some (Jv.jbool b), some (Jv.jnum n),
        some (Jv.jstr "640x480")⟩)).width = 640 ∧
    (handleFeedbackMsg st (some ⟨some (Jv.jbool b), some (Jv.jnum n),
        some (Jv.jstr "640x480")⟩)).height = 480 ∧
    (handleFeedbackMsg st (some ⟨some (Jv.jbool b), q,
        some (Jv.jstr "1280x720")⟩)).width = 1280 ∧
    (handleFeedbackMsg st (some ⟨some (Jv.jbool b), q,
        some (Jv.jstr s)⟩)).network_congested = b := by
  refine ⟨rfl, rfl, rfl, rfl, rfl, rfl, rfl, rfl, rfl, rfl, ?_, ?_⟩ <;>
  · cases q with
    | none =>
      dsimp only [handleFeedbackMsg, Jv.as_bool, Jv.as_str]
      split_ifs <;> simp_all
    | some qj =>
      cases qj <;>
      · dsimp only [handleFeedbackMsg, Jv.as_bool, Jv.as_str, Jv.as_u64]
        split_ifs <;> simp_all

/-! ## Extractor scan lemmas -/

theorem findEndFuel_eq_none (data : List Nat) (fuel : Nat) :
    ∀ e0, (∀ e, e0 ≤ e → e + 1 < data.length →
        ¬(data.getD e 0 = 255 ∧ data.getD (e + 1) 0 = 217)) →
    findEndFuel data e0 fuel = none := by
  induction fuel with
  | zero => intro e0 _; rfl
  | succ f ih =>
    intro e0 h
    simp only [findEndFuel]
    by_cases hg : e0 + 1 < data.length
    · rw [if_pos hg, if_neg (h e0 (Nat.le_refl e0) hg)]
      exact ih (e0 + 1) fun e he hlt => h e (by omega) hlt
    · rw [if_neg hg]

theorem findEndFuel_eq_some (data : List Nat) (t : Nat)
    (ht : t + 1 < data.length) (h255 : data.getD t 0 = 255) (h217 : data.getD (t + 1) 0 = 217) :
    ∀ fuel e0, e0 ≤ t → t + 1 - e0 < fuel →
    (∀ j, e0 ≤ j → j < t → ¬(data.getD j 0 = 255 ∧ data.getD (j + 1) 0 = 217)) →
    findEndFuel data e0 fuel = some t := by
  intro fuel
  induction fuel with
  | zero => intro e0 _ hf; omega
  | succ f ih =>
    intro e0 he0 hf hmin
    simp only [findEndFuel]
    rw [if_pos (by omega)]
    by_cases heq : e0 = t
    · subst heq
      rw [if_pos ⟨h255, h217⟩]
    · rw [if_neg (hmin e0 (Nat.le_refl e0) (by omega))]
      exact ih (e0 + 1) (by omega) (by omega) fun j hj hjt => hmin j (by omega) hjt

theorem findEndFuel_some_spec (data : List Nat) :
    ∀ fuel e0 t, findEndFuel data e0 fuel = some t →
    e0 ≤ t ∧ t + 1 < data.length ∧ data.getD t 0 = 255 ∧ data.getD (t + 1) 0 = 217 ∧
      ∀ j, e0 ≤ j → j < t → ¬(data.getD j 0 = 255 ∧ data.getD (j + 1) 0 = 217) := by
  intro fuel
  induction fuel with
  | zero => intro e0 t h; cases h
  | succ f ih =>
    intro e0 t h
    simp only [findEndFuel] at h
    by_cases hg : e0 + 1 < data.length
    · rw [if_pos hg] at h
      by_cases hp : data.getD e0 0 = 255 ∧ data.getD (e0 + 1) 0 = 217
      · rw [if_pos hp] at h
        cases h
        exact ⟨Nat.le_refl _, hg, hp.1, hp.2, fun j h1 h2 => by omega⟩
      · rw [if_neg hp] at h
        obtain ⟨h1, h2, h3, h4, h5⟩ := ih (e0 + 1) t h
        refine ⟨by omega, h2, h3, h4, fun j hj hjt => ?_⟩
        by_cases hje : j = e0
        · subst hje; exact hp
        · exact h5 j (by omega) hjt
    · rw [if_neg hg] at h
      cases h

theorem extractLoopFuel_at_end (data : List Nat) (pos fuel : Nat)
    (h : ¬(pos + 4 < data.length)) : extractLoopFuel data pos fuel = ([], pos) := by
  cases fuel with
  | zero => rfl
  | succ f => simp only [extractLoopFuel]; rw [if_neg h]

theorem extractLoopFuel_no_start (data : List Nat) :
    ∀ fuel pos, (∀ i, pos ≤ i → i + 4 < data.length → data.getD i 0 ≠ 255) →
    (extractLoopFuel data pos fuel).1 = [] := by
  intro fuel
  induction fuel with
  | zero => intro pos _; rfl
  | succ f ih =>
    intro pos h
    simp only [extractLoopFuel]
    by_cases hg : pos + 4 < data.length
    · rw [if_pos hg, if_neg (fun hp => h pos (Nat.le_refl pos) hg hp.1)]
      exact ih (pos + 1) fun i hi => h i (by omega)
    · rw [if_neg hg]

/-! ## Well-formed frames and their scan behaviour -/

theorem frameBytes_length (P : List Nat) : (frameBytes P).length = P.length + 4 := by
  simp [frameBytes]

theorem frameBytes_getD_zero (P : List Nat) : (frameBytes P).getD 0 0 = 255 := rfl

theorem frameBytes_getD_one (P : List Nat) : (frameBytes P).getD 1 0 = 216 := rfl

theorem frameBytes_getD_two_add (P : List Nat) (j : Nat) :
    (frameBytes P).getD (j + 2) 0 = (P ++ [255, 217]).getD j 0 := rfl

theorem frameBytes_getD_end_marker (P : List Nat) :
    (frameBytes P).getD (P.length + 2) 0 = 255 ∧
    (frameBytes P).getD (P.length + 3) 0 = 217 := by
  constructor
  · rw [frameBytes_getD_two_add, getD_append_right P _ _ (Nat.le_refl _), Nat.sub_self]
    rfl
  · have h3 : P.length + 3 = (P.length + 1) + 2 := by omega
    rw [h3, frameBytes_getD_two_add, getD_append_right P _ _ (by omega)]
    have h4 : P.length + 1 - P.length = 1 := by omega
    rw [h4]
    rfl

/-- Inside a well-formed frame, no end-marker pair occurs at any position
`j ≥ 2` with `j + 1 < payload length + 3` (that is, strictly before the real
end marker). -/
theorem frameBytes_no_early_end (P : List Nat) (hm : markerFree P) (j : Nat)
    (h2 : 2 ≤ j) (hlt : j + 1 < P.length + 3) :
    ¬((frameBytes P).getD j 0 = 255 ∧ (frameBytes P).getD (j + 1) 0 = 217) := by
  obtain ⟨k, rfl⟩ : ∃ k, j = k + 2 := ⟨j - 2, by omega⟩
  have hk : k < P.length := by omega
  rintro ⟨ha, hb⟩
  rw [frameBytes_getD_two_add, getD_append_left P _ _ hk] at ha
  have hb2 : (frameBytes P).getD (k + 1 + 2) 0 = 217 := by
    have : k + 2 + 1 = k + 1 + 2 := by omega
    rw [← this]; exact hb
  rw [frameBytes_getD_two_add] at hb2
  by_cases hk1 : k + 1 < P.length
  · rw [getD_append_left P _ _ hk1] at hb2
    exact hm k hk ⟨ha, Or.inr hb2⟩
  · have hke : P.length ≤ k + 1 := by omega
    rw [getD_append_right P _ _ hke] at hb2
    have : k + 1 - P.length = 0 := by omega
    rw [this] at hb2
    cases hb2

theorem getD_eq_of_append (T t S : List Nat) (h : T ++ t = S) (i : Nat) (hi : i < T.length) :
    S.getD i 0 = T.getD i 0 := by
  rw [← h, getD_append_left _ _ _ hi]

/-- A strict prefix of a well-formed frame yields no frame and consumes
nothing: the pass stops either at the `position + 4 < len` guard or at the
start marker with no end marker found yet. -/
theorem extractLoopFuel_on_incomplete (P T t : List Nat) (hm : markerFree P)
    (happ : T ++ t = frameBytes P) (ht : t ≠ []) (fuel : Nat) :
    extractLoopFuel T 0 fuel = ([], 0) := by
  have hTlen : T.length + t.length = P.length + 4 := by
    rw [← frameBytes_length P, ← happ, List.length_append]
  have htpos : 0 < t.length := List.length_pos.mpr ht
  cases fuel with
  | zero => rfl
  | succ f =>
    simp only [extractLoopFuel]
    by_cases hg : 0 + 4 < T.length
    · have h0 : T.getD 0 0 = 255 := by
        rw [← getD_eq_of_append T t _ happ 0 (by omega)]; rfl
      have h1 : T.getD 1 0 = 216 := by
        rw [← getD_eq_of_append T t _ happ 1 (by omega)]; rfl
      rw [if_pos hg, if_pos ⟨h0, h1⟩]
      have hnone : findEndFuel T 2 T.length = none := by
        apply findEndFuel_eq_none
        intro e he hlt
        rw [← getD_eq_of_append T t _ happ e (by omega),
          ← getD_eq_of_append T t _ happ (e + 1) (by omega)]
        exact frameBytes_no_early_end P hm e he (by omega)
      rw [hnone]
    · rw [if_neg hg]

/-- A complete well-formed frame with nonempty payload is extracted whole,
and the scan ends exactly past it. -/
theorem extractLoopFuel_on_full (P : List Nat) (hm : markerFree P) (hP : P ≠ []) (fuel : Nat) :
    extractLoopFuel (frameBytes P) 0 (fuel + 1) = ([frameBytes P], P.length + 4) := by
  have hPpos : 0 < P.length := List.length_pos.mpr hP
  have hlen : (frameBytes P).length = P.length + 4 := frameBytes_length P
  simp only [extractLoopFuel]
  rw [if_pos (by omega), if_pos ⟨frameBytes_getD_zero P, frameBytes_getD_one P⟩]
  have hfind : findEndFuel (frameBytes P) 2 (frameBytes P).length = some (P.length + 2) := by
    apply findEndFuel_eq_some (frameBytes P) (P.length + 2) (by omega)
      (frameBytes_getD_end_marker P).1
      (by
        have : P.length + 2 + 1 = P.length + 3 := by omega
        rw [this]; exact (frameBytes_getD_end_marker P).2)
      ((frameBytes P).length) 2 (by omega) (by omega)
    intro j hj hjt
    exact frameBytes_no_early_end P hm j hj (by omega)
  rw [hfind]
  dsimp only
  have hframe : ((frameBytes P).drop 0).take (P.length + 2 + 2 - 0) = frameBytes P := by
    rw [List.drop_zero]
    have : P.length + 2 + 2 - 0 = (frameBytes P).length := by omega
    rw [this, List.take_length]
  have hrest : extractLoopFuel (frameBytes P) (P.length + 2 + 2) fuel = ([], P.length + 2 + 2) :=
    extractLoopFuel_at_end _ _ _ (by omega)
  rw [hframe, hrest]

/-! ## Chunk-level extraction lemmas -/

theorem processChunk_fst (acc chunk : List Nat) :
    (processChunk acc chunk).1 =
      (extractLoopFuel (acc ++ chunk) 0 ((acc ++ chunk).length + 1)).1 := by
  unfold processChunk
  dsimp only
  split_ifs <;> rfl

theorem foldl_feedChunk_nil_chunks (cs : List (List Nat)) :
    ∀ fs, cs.flatten = [] → List.foldl feedChunk (fs, []) cs = (fs, []) := by
  induction cs with
  | nil => intro fs _; rfl
  | cons c r ih =>
    intro fs h
    rw [List.flatten_cons] at h
    obtain ⟨hc, hr⟩ := List.append_eq_nil.mp h
    subst hc
    have hfeed : feedChunk (fs, []) [] = (fs, []) := by
      show (fs ++ (processChunk [] []).1, (processChunk [] []).2) = (fs, [])
      rw [show processChunk [] [] = ([], []) from rfl, List.append_nil]
    rw [List.foldl_cons, hfeed]
    exact ih fs hr

/-- The central invariant run: starting from an accumulation buffer holding
a proper prefix of the frame, feeding chunks whose bytes complete the frame
emits exactly the frame (or nothing at all if the payload is empty, since
the `position + 4 < len` guard never opens for a 4-byte buffer), provided
the whole frame fits under the 10 MiB truncation bound. -/
theorem foldl_feedChunk_run (P : List Nat) (hm : markerFree P)
    (hlen : P.length + 4 ≤ 10485760) :
    ∀ cs fs acc, acc ++ cs.flatten = frameBytes P → (P ≠ [] → acc ≠ frameBytes P) →
    (List.foldl feedChunk (fs, acc) cs).1 = fs ++ (if P = [] then [] else [frameBytes P]) := by
  intro cs
  induction cs with
  | nil =>
    intro fs acc hj hne
    rw [List.flatten_nil, List.append_nil] at hj
    by_cases hP : P = []
    · simp [hP]
    · exact absurd hj (hne hP)
  | cons c r ih =>
    intro fs acc hj hne
    rw [List.flatten_cons, ← List.append_assoc] at hj
    rw [List.foldl_cons]
    by_cases hd : acc ++ c = frameBytes P
    · have hrj : r.flatten = [] := by
        have hl := congrArg List.length hj
        rw [List.length_append, hd] at hl
        have h0 : r.flatten.length = 0 := by omega
        exact List.eq_nil_of_length_eq_zero h0
      by_cases hP : P = []
      · have hshort : ¬(0 + 4 < (acc ++ c).length) := by
          rw [hd, frameBytes_length, hP]
          simp
        have hfeed : feedChunk (fs, acc) c = (fs, acc ++ c) := by
          show (fs ++ (processChunk acc c).1, (processChunk acc c).2) = (fs, acc ++ c)
          unfold processChunk
          dsimp only
          rw [extractLoopFuel_at_end _ _ _ hshort]
          dsimp only
          rw [List.drop_zero, if_neg (by rw [hd, frameBytes_length, hP]; norm_num),
            List.append_nil]
        rw [hfeed]
        have := ih fs (acc ++ c) (by rw [hj]) (fun h => absurd hP h)
        rw [this]
      · have hful : extractLoopFuel (acc ++ c) 0 ((acc ++ c).length + 1) =
            ([frameBytes P], P.length + 4) := by
          rw [hd]
          exact extractLoopFuel_on_full P hm hP ((frameBytes P).length)
        have hfeed : feedChunk (fs, acc) c = (fs ++ [frameBytes P], []) := by
          show (fs ++ (processChunk acc c).1, (processChunk acc c).2) =
            (fs ++ [frameBytes P], [])
          unfold processChunk
          dsimp only
          rw [hful]
          dsimp only
          rw [hd, show P.length + 4 = (frameBytes P).length from (frameBytes_length P).symm,
            List.drop_length]
          rw [if_neg (by norm_num)]
        rw [hfeed, foldl_feedChunk_nil_chunks r (fs ++ [frameBytes P]) hrj]
        rw [if_neg hP]
    · have hrne : r.flatten ≠ [] := by
        intro h0
        rw [h0, List.append_nil] at hj
        exact hd hj
      have hpart : extractLoopFuel (acc ++ c) 0 ((acc ++ c).length + 1) = ([], 0) :=
        extractLoopFuel_on_incomplete P (acc ++ c) r.flatten hm hj hrne _
      have hbound : ¬((acc ++ c).length > 10 * 1024 * 1024) := by
        have hl := congrArg List.length hj
        rw [List.length_append, frameBytes_length] at hl
        omega
      have hfeed : feedChunk (fs, acc) c = (fs, acc ++ c) := by
        show (fs ++ (processChunk acc c).1, (processChunk acc c).2) = (fs, acc ++ c)
        unfold processChunk
        dsimp only
        rw [hpart]
        dsimp only
        rw [List.drop_zero, if_neg hbound, List.append_nil]
      rw [hfeed]
      exact ih fs (acc ++ c) hj (fun _ => hd)

/-! ## C4 -/

/-- C4 (amended): for a byte stream consisting of one well-formed
marker-delimited frame whose payload contains no embedded start or end
marker, and whose total length stays within the 10 MiB accumulation bound
(so the truncation recovery never triggers), every partition of the stream
into read chunks yields exactly the same extracted frames as a single
read. -/
theorem c4_chunking_invariant (P : List Nat) (cs : List (List Nat)) (hm : markerFree P)
    (hlen : P.length + 4 ≤ 10485760) (hj : cs.flatten = frameBytes P) :
    (processStream cs).1 = (processStream [frameBytes P]).1 := by
  unfold processStream
  have hne : ∀ _ : P ≠ [], ([] : List Nat) ≠ frameBytes P := by
    intro _ h
    have := congrArg List.length h
    rw [frameBytes_length] at this
    simp at this
  rw [foldl_feedChunk_run P hm hlen cs [] [] (by simpa using hj) hne,
    foldl_feedChunk_run P hm hlen [frameBytes P] [] []
      (by simp) hne]

/-- C4 witness: a concrete 5-byte frame split across three reads extracts
the same frame as a single read. -/
theorem c4_chunking_invariant_witness :
    markerFree [65] ∧ ([65] : List Nat).length + 4 ≤ 10485760 ∧
    List.flatten [[255], [216, 65], [255, 217]] = frameBytes [65] ∧
    (processStream [[255], [216, 65], [255, 217]]).1 =
      (processStream [frameBytes [65]]).1 :=
  ⟨by decide, by decide, by decide,
    c4_chunking_invariant [65] [[255], [216, 65], [255, 217]] (by decide) (by decide)
      (by decide)⟩

/-- C4 counterexample: the claim as stated quantifies over every well-formed
single-frame stream, but a frame longer than the 10 MiB accumulation bound
defeats chunked reading: fed in two chunks, the first pass finds no end
marker, the truncation throws away everything but the trailing 1 MiB
(losing the start marker), and the final chunk completes nothing — while a
single read extracts the whole frame.  So chunked and single-read results
differ. -/
theorem c4_chunking_counterexample :
    markerFree (List.replicate 10485760 0) ∧
    List.flatten [255 :: 216 :: List.replicate 10485760 0, [255, 217]] =
      frameBytes (List.replicate 10485760 0) ∧
    (processStream [255 :: 216 :: List.replicate 10485760 0, [255, 217]]).1 ≠
      (processStream [frameBytes (List.replicate 10485760 0)]).1 := by
  have hm : markerFree (List.replicate 10485760 0) := by
    intro i hi
    rw [getD_replicate, getD_replicate, ite_self, ite_self]
    omega
  have hP : (List.replicate 10485760 (0 : Nat)) ≠ [] := by
    intro h
    have hl := congrArg List.length h
    rw [List.length_replicate, List.length_nil] at hl
    omega
  refine ⟨hm, ?_, ?_⟩
  · rw [List.flatten_cons, List.flatten_cons, List.flatten_nil, List.append_nil]
    rfl
  · -- single read: the whole frame comes out
    have hsingle : (processStream [frameBytes (List.replicate 10485760 0)]).1 =
        [frameBytes (List.replicate 10485760 0)] := by
      unfold processStream
      rw [List.foldl_cons, List.foldl_nil]
      show ([] ++ (processChunk [] (frameBytes (List.replicate 10485760 0))).1 :
        List (List Nat)) = _
      rw [processChunk_fst, List.nil_append, List.nil_append]
      rw [extractLoopFuel_on_full (List.replicate 10485760 0) hm hP _]
    -- chunked: the first pass retains everything, truncation drops the
    -- start marker, and the second pass finds nothing
    have hchunk1 : extractLoopFuel (255 :: 216 :: List.replicate 10485760 0) 0
        ((255 :: 216 :: List.replicate 10485760 0 : List Nat).length + 1) = ([], 0) := by
      apply extractLoopFuel_on_incomplete (List.replicate 10485760 0)
        (255 :: 216 :: List.replicate 10485760 0) [255, 217] hm
      · show 255 :: 216 :: (List.replicate 10485760 0 ++ [255, 217]) = _
        rfl
      · exact List.cons_ne_nil 255 [217]
    have hlen1 : (255 :: 216 :: List.replicate 10485760 0 : List Nat).length = 10485762 := by
      rw [List.length_cons, List.length_cons, List.length_replicate]
    have hstep1 : processChunk [] (255 :: 216 :: List.replicate 10485760 0) =
        ([], List.replicate 1048576 0) := by
      unfold processChunk
      dsimp only
      rw [List.nil_append, hchunk1]
      dsimp only
      rw [List.drop_zero, if_pos (by rw [hlen1]; norm_num)]
      rw [hlen1]
      have hmin : (1024 : Nat) * min 1024 10485762 = 1048576 := by norm_num
      rw [hmin]
      have hsub : (10485762 : Nat) - 1048576 = 9437184 + 2 := by norm_num
      rw [hsub]
      have hdrop : (255 :: 216 :: List.replicate 10485760 0 : List Nat).drop (9437184 + 2) =
          (List.replicate 10485760 0).drop 9437184 := by
        rw [show (9437184 : Nat) + 2 = (9437184 + 1) + 1 from rfl,
          List.drop_succ_cons, List.drop_succ_cons]
      rw [hdrop, List.drop_replicate,
        show (10485760 : Nat) - 9437184 = 1048576 from by norm_num]
    have hnostart : (extractLoopFuel (List.replicate 1048576 0 ++ [255, 217]) 0
        ((List.replicate 1048576 0 ++ [255, 217] : List Nat).length + 1)).1 = [] := by
      apply extractLoopFuel_no_start
      intro i _ hlt
      rw [List.length_append, List.length_replicate,
        show ([255, 217] : List Nat).length = 2 from rfl] at hlt
      rw [getD_append_left _ _ _ (by rw [List.length_replicate]; omega), getD_replicate,
        ite_self]
      omega
    have hchunked : (processStream
        [255 :: 216 :: List.replicate 10485760 0, [255, 217]]).1 = [] := by
      unfold processStream
      rw [List.foldl_cons, List.foldl_cons, List.foldl_nil]
      have h1 : feedChunk ([], []) (255 :: 216 :: List.replicate 10485760 0) =
          ([], List.replicate 1048576 0) := by
        show (([] : List (List Nat)) ++
            (processChunk [] (255 :: 216 :: List.replicate 10485760 0)).1,
            (processChunk [] (255 :: 216 :: List.replicate 10485760 0)).2) = _
        rw [hstep1]
        rfl
      rw [h1]
      show (([] : List (List Nat)) ++ (processChunk (List.replicate 1048576 0) [255, 217]).1,
          (processChunk (List.replicate 1048576 0) [255, 217]).2).1 = []
      rw [processChunk_fst, hnostart]
      rfl
    rw [hchunked, hsingle]
    exact fun h => List.noConfusion h

/-! ## C10 -/

/-- Every frame the scanning loop emits starts with the two-byte start
marker, ends with the two-byte end marker, is at least 4 bytes long, and
contains no end-marker pair before its final two bytes. -/
theorem extractLoopFuel_frames_shape (data : List Nat) :
    ∀ fuel pos f, f ∈ (extractLoopFuel data pos fuel).1 →
    f.getD 0 0 = 255 ∧ f.getD 1 0 = 216 ∧ 4 ≤ f.length ∧
      f.getD (f.length - 2) 0 = 255 ∧ f.getD (f.length - 1) 0 = 217 ∧
      ∀ i, i + 2 < f.length → ¬(f.getD i 0 = 255 ∧ f.getD (i + 1) 0 = 217) := by
  intro fuel
  induction fuel with
  | zero => intro pos f h; cases h
  | succ fl ih =>
    intro pos f h
    simp only [extractLoopFuel] at h
    by_cases hg : pos + 4 < data.length
    · rw [if_pos hg] at h
      by_cases hp : data.getD pos 0 = 255 ∧ data.getD (pos + 1) 0 = 216
      · rw [if_pos hp] at h
        cases hfind : findEndFuel data (pos + 2) data.length with
        | none => rw [hfind] at h; cases h
        | some e =>
          rw [hfind] at h
          dsimp only at h
          obtain ⟨he2, helt, he255, he217, hemin⟩ :=
            findEndFuel_some_spec data data.length (pos + 2) e hfind
          rcases List.mem_cons.mp h with hf | hf
          · subst hf
            have hflen : ((data.drop pos).take (e + 2 - pos)).length = e + 2 - pos := by
              rw [List.length_take, List.length_drop]
              omega
            have hidx : ∀ i, i < e + 2 - pos →
                ((data.drop pos).take (e + 2 - pos)).getD i 0 = data.getD (pos + i) 0 := by
              intro i hi
              rw [getD_take_of_lt _ _ _ hi, getD_drop]
            refine ⟨?_, ?_, ?_, ?_, ?_, ?_⟩
            · rw [hidx 0 (by omega)]
              simpa using hp.1
            · rw [hidx 1 (by omega)]
              simpa using hp.2
            · omega
            · rw [hflen, hidx (e + 2 - pos - 2) (by omega),
                show pos + (e + 2 - pos - 2) = e by omega]
              exact he255
            · rw [hflen, hidx (e + 2 - pos - 1) (by omega),
                show pos + (e + 2 - pos - 1) = e + 1 by omega]
              exact he217
            · intro i hilt
              rw [hflen] at hilt
              rw [hidx i (by omega), hidx (i + 1) (by omega),
                show pos + (i + 1) = pos + i + 1 from by omega]
              by_cases h0 : i = 0
              · subst h0
                rintro ⟨-, hx⟩
                rw [show pos + 0 + 1 = pos + 1 from by omega] at hx
                rw [hp.2] at hx
                cases hx
              · by_cases h1 : i = 1
                · subst h1
                  rintro ⟨hx, -⟩
                  rw [show pos + 1 = pos + 1 from rfl] at hx
                  rw [hp.2] at hx
                  cases hx
                · exact hemin (pos + i) (by omega) (by omega)
          · exact ih (e + 2) f hf
      · rw [if_neg hp] at h
        exact ih (pos + 1) f h
    · rw [if_neg hg] at h
      cases h

/-- C10: every frame emitted by a read pass of the extractor begins with the
start marker 0xFF 0xD8, ends with the end marker 0xFF 0xD9, is at least 4
bytes long, and contains no occurrence of the end marker other than its
final two bytes. -/
theorem c10_frame_shape (acc chunk f : List Nat) (h : f ∈ (processChunk acc chunk).1) :
    f.getD 0 0 = 255 ∧ f.getD 1 0 = 216 ∧ 4 ≤ f.length ∧
      f.getD (f.length - 2) 0 = 255 ∧ f.getD (f.length - 1) 0 = 217 ∧
      ∀ i, i + 2 < f.length → ¬(f.getD i 0 = 255 ∧ f.getD (i + 1) 0 = 217) := by
  rw [processChunk_fst] at h
  exact extractLoopFuel_frames_shape (acc ++ chunk) _ 0 f h

/-- C10 witness: the concrete frame FF D8 07 FF D9 extracted from a single
read has the stated shape. -/
theorem c10_frame_shape_witness :
    ([255, 216, 7, 255, 217] : List Nat) ∈ (processChunk [] [255, 216, 7, 255, 217]).1 ∧
    (([255, 216, 7, 255, 217] : List Nat).getD 0 0 = 255 ∧
      ([255, 216, 7, 255, 217] : List Nat).getD 1 0 = 216 ∧
      4 ≤ ([255, 216, 7, 255, 217] : List Nat).length ∧
      ([255, 216, 7, 255, 217] : List Nat).getD
        (([255, 216, 7, 255, 217] : List Nat).length - 2) 0 = 255 ∧
      ([255, 216, 7, 255, 217] : List Nat).getD
        (([255, 216, 7, 255, 217] : List Nat).length - 1) 0 = 217 ∧
      ∀ i, i + 2 < ([255, 216, 7, 255, 217] : List Nat).length →
        ¬(([255, 216, 7, 255, 217] : List Nat).getD i 0 = 255 ∧
          ([255, 216, 7, 255, 217] : List Nat).getD (i + 1) 0 = 217)) :=
  ⟨by decide, c10_frame_shape [] [255, 216, 7, 255, 217] [255, 216, 7, 255, 217] (by decide)⟩

/-! ## C7 -/

/-- C7: on a frame send failure the outbound loop sleeps a fixed 5 seconds
(action index 1, right after the failed send) and then attempts exactly one
reconnect (action index 2, and the iteration contains no other reconnect
attempt); the iteration continues only if both the reconnect and the resent
join message succeed, and when the reconnect attempt fails the loop exits
permanently: no later event is processed and no further retry is
scheduled. -/
theorem c7_single_reconnect (st : OutState) (bytes : List Nat) (rOk jOk : Bool) :
    ((stepOutbound st (OutEvent.frame bytes false rOk jOk)).actions.get? 1 =
      some (OutAction.slept 5000)) ∧
    ((stepOutbound st (OutEvent.frame bytes false rOk jOk)).actions.get? 2 =
      some (OutAction.reconnected rOk)) ∧
    ((stepOutbound st (OutEvent.frame bytes false rOk jOk)).actions.countP isReconnect = 1) ∧
    ((stepOutbound st (OutEvent.frame bytes false rOk jOk)).keepGoing = (rOk && jOk)) ∧
    ((rOk && jOk) = false → ∀ rest,
      runOutbound st (OutEvent.frame bytes false rOk jOk :: rest) =
        ((stepOutbound st (OutEvent.frame bytes false rOk jOk)).state,
          (stepOutbound st (OutEvent.frame bytes false rOk jOk)).actions)) := by
  cases rOk <;> cases jOk <;>
    simp [stepOutbound, runOutbound, isReconnect, List.countP, List.countP.go]

/-- C7 witness: with both the reconnect and the rejoin failing, the loop
stops and the pending later event is never processed. -/
theorem c7_single_reconnect_witness :
    runOutbound ⟨0, 0, false, 70, 1280, 720, 5, 123456, "cam"⟩
        [OutEvent.frame [1] false false false, OutEvent.pong true] =
      ((stepOutbound ⟨0, 0, false, 70, 1280, 720, 5, 123456, "cam"⟩
          (OutEvent.frame [1] false false false)).state,
        (stepOutbound ⟨0, 0, false, 70, 1280, 720, 5, 123456, "cam"⟩
          (OutEvent.frame [1] false false false)).actions) :=
  (c7_single_reconnect ⟨0, 0, false, 70, 1280, 720, 5, 123456, "cam"⟩ [1] false false).2.2.2.2
    rfl [OutEvent.pong true]

/-! ## C9 -/

/-- C9: the claim says each frame message carries that frame's capture
timestamp, so frames captured at distinct times carry distinct timestamps.
In the code `capture_timestamp` is computed once, before the send loop
(src/main.rs lines 329-332), and never refreshed: in the concrete session
below two distinct frames are sent and both messages carry the identical
loop-start timestamp 123456. -/
theorem c9_constant_timestamp :
    List.map FramePayload.timestamp
        (sentPayloads (runOutbound ⟨0, 0, false, 70, 1280, 720, 5, 123456, "cam"⟩
          [OutEvent.frame [1] true true true, OutEvent.frame [2] true true true]).2) =
      [123456, 123456] ∧
    List.map FramePayload.data
        (sentPayloads (runOutbound ⟨0, 0, false, 70, 1280, 720, 5, 123456, "cam"⟩
          [OutEvent.frame [1] true true true, OutEvent.frame [2] true true true]).2) =
      ["AQ==", "Ag=="] ∧
    ([1] : List Nat) ≠ [2] := by
  refine ⟨rfl, rfl, by decide⟩

end SecCam
